import Mathlib

/-!
Verification of the RISC-V pipeline simulator core (execution.hpp,
simulator.hpp) against its natural-language specification.

The C++ source is shallowly embedded: machine 32-bit unsigned arithmetic is
modelled on `Nat` with explicit reduction modulo `2 ^ 32`; signed views go
through `Int`; the sparse byte memory (`std::unordered_map<uint32_t,uint8_t>`
with absent keys reading as 0) is a total function `Nat → Nat`; the text map
is an association list; code that throws `std::runtime_error` returns
`Except String`.
-/

namespace RiscvSim

/-- Word modulus of the 32-bit machine. -/
def M32 : Nat := 4294967296

/-- Reduce a natural number to a 32-bit unsigned value, as C++ `uint32_t`
arithmetic does implicitly on every operation. -/
def u32 (n : Nat) : Nat := n % M32

/-- Two's-complement subtraction on 32-bit values (C++ `uint32_t` a - b). -/
def sub32 (a b : Nat) : Nat := (a + (M32 - b % M32)) % M32

/-- Signed reading of a 32-bit value (C++ `static_cast<int32_t>`). -/
def toInt32 (n : Nat) : Int := if n % M32 < 2147483648 then (n % M32 : Int) else (n % M32 : Int) - 4294967296

/-- Unsigned reading back of a signed result (C++ `static_cast<uint32_t>`). -/
def ofInt32 (i : Int) : Nat := (i.emod 4294967296).toNat

/-- Sign extension of a byte into a 32-bit value (C++ `static_cast<int8_t>`
then widening to `uint32_t`), as in the LB path of `memoryAccess`. -/
def sext8 (n : Nat) : Nat :=
  let b := n % 256
  if b < 128 then b else b + 4294967040

/-- Sign extension of a halfword into a 32-bit value (C++
`static_cast<int16_t>` then widening), as in the LH path of `memoryAccess`. -/
def sext16 (n : Nat) : Nat :=
  let h := n % 65536
  if h < 32768 then h else h + 4294901760

/-- Modelled from the spec: the memory capacity constant `MEMORY_SIZE` lives
in the repository's `types.hpp`, which is not among the provided sources.
The spec fixes the layout (text at a fixed low address, data segment at
0x10000000, initial stack pointer 0x7FFFFFDC inside memory), with which this
value is consistent. -/
def MEMORY_SIZE : Nat := 2147483648

/-- Modelled from the spec: text-segment base from the missing `types.hpp`
("Text segment starts at a fixed low address"). -/
def TEXT_SEGMENT_START : Nat := 0

/-- Modelled from the spec: data-segment base from the missing `types.hpp`
(the spec's initial gp register x3 points at the data segment, 0x10000000). -/
def DATA_SEGMENT_START : Nat := 268435456

/-- Instruction size in bytes (`INSTRUCTION_SIZE`). -/
def INSTRUCTION_SIZE : Nat := 4

/-- The six instruction format variants (`InstructionType` in types.hpp). -/
inductive InstructionType where
  | R | I | S | SB | U | UJ
deriving DecidableEq, Repr

/-- Pipeline stages (`Stage` in types.hpp). -/
inductive Stage where
  | FETCH | DECODE | EXECUTE | MEMORY | WRITEBACK
deriving DecidableEq, Repr

/-- Modelled from the spec: the canonical RV32I/M R-type encoding table
(`RTypeInstructions::getEncoding()` from the missing `types.hpp`), listed in
the alphabetical key order in which `std::map` iteration visits it.
Each entry is (mnemonic, opcode, func3, func7). -/
def rTypeEncoding : List (String × Nat × Nat × Nat) :=
  [("add", 0x33, 0x0, 0x00), ("and", 0x33, 0x7, 0x00), ("div", 0x33, 0x4, 0x01),
   ("mul", 0x33, 0x0, 0x01), ("or", 0x33, 0x6, 0x00), ("rem", 0x33, 0x6, 0x01),
   ("sll", 0x33, 0x1, 0x00), ("slt", 0x33, 0x2, 0x00), ("sra", 0x33, 0x5, 0x20),
   ("srl", 0x33, 0x5, 0x00), ("sub", 0x33, 0x0, 0x20), ("xor", 0x33, 0x4, 0x00)]

/-- Modelled from the spec: canonical I-type encoding table
(mnemonic, opcode, func3), in `std::map` (alphabetical) iteration order. -/
def iTypeEncoding : List (String × Nat × Nat) :=
  [("addi", 0x13, 0x0), ("andi", 0x13, 0x7), ("jalr", 0x67, 0x0),
   ("lb", 0x03, 0x0), ("ld", 0x03, 0x3), ("lh", 0x03, 0x1), ("lw", 0x03, 0x2),
   ("ori", 0x13, 0x6), ("slli", 0x13, 0x1), ("slti", 0x13, 0x2),
   ("sltiu", 0x13, 0x3), ("srai", 0x13, 0x5), ("srli", 0x13, 0x5),
   ("xori", 0x13, 0x4)]

/-- Modelled from the spec: canonical S-type encoding table. -/
def sTypeEncoding : List (String × Nat × Nat) :=
  [("sb", 0x23, 0x0), ("sd", 0x23, 0x3), ("sh", 0x23, 0x1), ("sw", 0x23, 0x2)]

/-- Modelled from the spec: canonical SB-type encoding table. -/
def sbTypeEncoding : List (String × Nat × Nat) :=
  [("beq", 0x63, 0x0), ("bge", 0x63, 0x5), ("bgeu", 0x63, 0x7),
   ("blt", 0x63, 0x4), ("bltu", 0x63, 0x6), ("bne", 0x63, 0x1)]

/-- Modelled from the spec: canonical U-type encoding table. -/
def uTypeEncoding : List (String × Nat) := [("auipc", 0x17), ("lui", 0x37)]

/-- Modelled from the spec: canonical UJ-type encoding table. -/
def ujTypeEncoding : List (String × Nat) := [("jal", 0x6F)]

/-- In-flight instruction record (`InstructionNode`). -/
structure InstrNode where
  instruction : Nat
  instructionType : InstructionType
  PC : Nat
  opcode : Nat := 0
  func3 : Nat := 0
  func7 : Nat := 0
  rd : Nat := 0
  rs1 : Nat := 0
  rs2 : Nat := 0
deriving DecidableEq, Repr

/-- Inter-stage datapath registers (`InstructionRegisters`). -/
structure InstructionRegisters where
  RA : Nat := 0
  RB : Nat := 0
  RM : Nat := 0
  RY : Nat := 0
  RZ : Nat := 0
deriving DecidableEq, Repr

/-- Pointwise update of a register file or byte map, mirroring a C++
array/map assignment. -/
def upd (f : Nat → Nat) (i v : Nat) : Nat → Nat :=
  fun j => if j = i then v else f j

/-- Embeds `initialiseRegisters` (execution.hpp): zero the file, then set
sp, gp, a0, a1. -/
def initialiseRegisters : Nat → Nat :=
  upd (upd (upd (upd (fun _ => 0) 2 0x7FFFFFDC) 3 0x10000000) 10 0x00000001) 11 0x7FFFFFDC

/-- Embeds `isValidAddress` (execution.hpp): the sum addr + size is computed
in `uint32_t` (hence reduced mod 2^32); the check fails only when that sum
exceeds `MEMORY_SIZE` (the second C++ disjunct, an unsigned comparison with
zero, can never fire and is kept literally). -/
def isValidAddress (addr size : Nat) : Except String Bool :=
  if u32 (addr + size) > MEMORY_SIZE ∨ u32 (addr + size) < 0 then
    Except.error "Memory access error: address outside of valid memory range"
  else
    Except.ok true

/-- Embeds `classifyInstructions` (execution.hpp): scan the six encoding
tables in order; an instruction matching none raises a runtime error. -/
def classifyInstructions (instHex : Nat) : Except String InstructionType :=
  let opcode := instHex &&& 0x7F
  let func3 := (instHex >>> 12) &&& 0x7
  let func7 := (instHex >>> 25) &&& 0x7F
  if (rTypeEncoding.find? fun e => e.2.1 == opcode && e.2.2.1 == func3 && e.2.2.2 == func7).isSome then
    Except.ok InstructionType.R
  else if (iTypeEncoding.find? fun e => e.2.1 == opcode && e.2.2 == func3).isSome then
    Except.ok InstructionType.I
  else if (sTypeEncoding.find? fun e => e.2.1 == opcode && e.2.2 == func3).isSome then
    Except.ok InstructionType.S
  else if (sbTypeEncoding.find? fun e => e.2.1 == opcode && e.2.2 == func3).isSome then
    Except.ok InstructionType.SB
  else if (uTypeEncoding.find? fun e => e.2 == opcode).isSome then
    Except.ok InstructionType.U
  else if (ujTypeEncoding.find? fun e => e.2 == opcode).isSome then
    Except.ok InstructionType.UJ
  else
    Except.error "Instruction could not be classified: Invalid opcode"

/-- Embeds the I-immediate extraction of `decodeInstruction`: bits [31:20],
sign-extended (the C++ widens through `int32_t` and lands in a `uint32_t`). -/
def immI (inst : Nat) : Nat :=
  let imm := (inst >>> 20) &&& 0xFFF
  if imm &&& 0x800 ≠ 0 then imm ||| 0xFFFFF000 else imm

/-- Embeds the S-immediate extraction of `decodeInstruction`. -/
def immS (inst : Nat) : Nat :=
  let imm := ((u32 inst >>> 25) <<< 5) ||| ((inst >>> 7) &&& 0x1F)
  if imm &&& 0x800 ≠ 0 then imm ||| 0xFFFFF000 else imm

/-- Embeds the SB-immediate extraction of `decodeInstruction`. -/
def immSB (inst : Nat) : Nat :=
  let imm := ((u32 inst >>> 31) <<< 12) ||| (((inst >>> 7) &&& 1) <<< 11) |||
             (((inst >>> 25) &&& 0x3F) <<< 5) ||| (((inst >>> 8) &&& 0xF) <<< 1)
  if imm &&& 0x1000 ≠ 0 then imm ||| 0xFFFFE000 else imm

/-- Embeds the U-immediate extraction of `decodeInstruction`. -/
def immU (inst : Nat) : Nat := inst &&& 0xFFFFF000

/-- Embeds the UJ-immediate extraction of `decodeInstruction`. -/
def immUJ (inst : Nat) : Nat :=
  let imm := ((u32 inst >>> 31) <<< 20) ||| (((inst >>> 12) &&& 0xFF) <<< 12) |||
             (((inst >>> 20) &&& 1) <<< 11) ||| (((inst >>> 21) &&& 0x3FF) <<< 1)
  if imm &&& 0x100000 ≠ 0 then imm ||| 0xFFE00000 else imm

/-- Embeds `decodeInstruction` (execution.hpp): extract the fields, read RA
from the register file for R/I/S/SB, fill RB with the second register (R) or
the sign-extended immediate (I/S/SB/U/UJ), and RM with the store value for
S-type. The C++ `default` throw is unreachable because the variant enum is
total here. -/
def decodeInstruction (node : InstrNode) (ir : InstructionRegisters)
    (registers : Nat → Nat) : InstrNode × InstructionRegisters :=
  let inst := node.instruction
  let node := { node with
    opcode := inst &&& 0x7F,
    rd := (inst >>> 7) &&& 0x1F,
    func3 := (inst >>> 12) &&& 0x7,
    rs1 := (inst >>> 15) &&& 0x1F,
    rs2 := (inst >>> 20) &&& 0x1F,
    func7 := (inst >>> 25) &&& 0x7F }
  let ra := match node.instructionType with
    | InstructionType.R | InstructionType.I | InstructionType.S
    | InstructionType.SB => registers node.rs1
    | InstructionType.U | InstructionType.UJ => 0
  let ir := { ir with RA := ra }
  match node.instructionType with
  | InstructionType.R => (node, { ir with RB := registers node.rs2 })
  | InstructionType.I => (node, { ir with RB := immI inst })
  | InstructionType.S => (node, { ir with RB := immS inst, RM := registers node.rs2 })
  | InstructionType.SB => (node, { ir with RB := immSB inst })
  | InstructionType.U => (node, { ir with RB := immU inst })
  | InstructionType.UJ => (node, { ir with RB := immUJ inst })

/-- Embeds `executeInstruction` (execution.hpp): scan the encoding tables in
order R, I, S, SB, U, UJ; dispatch on the matched mnemonic with the same
if-chains as the source; return the updated datapath registers and the new
PC. The unsupported `ld` and the no-table-match case raise runtime errors. -/
def executeInstruction (node : InstrNode) (ir : InstructionRegisters)
    (PC : Nat) : Except String (InstructionRegisters × Nat) :=
  match rTypeEncoding.find? (fun e => e.2.1 == node.opcode && e.2.2.1 == node.func3 && e.2.2.2 == node.func7) with
  | some e =>
    let name := e.1
    let result :=
      if name = "add" then u32 (ir.RA + ir.RB)
      else if name = "sub" then sub32 ir.RA ir.RB
      else if name = "mul" then u32 (ir.RA * ir.RB)
      else if name = "div" then
        if ir.RB = 0 then 0xFFFFFFFF
        else ofInt32 ((toInt32 ir.RA).tdiv (toInt32 ir.RB))
      else if name = "rem" then
        if ir.RB = 0 then ir.RA
        else ofInt32 ((toInt32 ir.RA).tmod (toInt32 ir.RB))
      else if name = "and" then ir.RA &&& ir.RB
      else if name = "or" then ir.RA ||| ir.RB
      else if name = "xor" then ir.RA ^^^ ir.RB
      else if name = "sll" then u32 (ir.RA <<< (ir.RB &&& 0x1F))
      else if name = "srl" then ir.RA >>> (ir.RB &&& 0x1F)
      else if name = "sra" then ofInt32 ((toInt32 ir.RA).fdiv (2 ^ (ir.RB &&& 0x1F)))
      else if name = "slt" then (if toInt32 ir.RA < toInt32 ir.RB then 1 else 0)
      else 0
    Except.ok ({ ir with RY := result }, PC)
  | none =>
  match iTypeEncoding.find? (fun e => e.2.1 == node.opcode && e.2.2 == node.func3) with
  | some e =>
    let name := e.1
    if name = "lb" ∨ name = "lh" ∨ name = "lw" then
      Except.ok ({ ir with RY := u32 (ir.RA + ir.RB) }, PC)
    else if name = "ld" then
      Except.error "ld instruction not supported"
    else if name = "jalr" then
      Except.ok ({ ir with RY := PC }, (u32 (ir.RA + ir.RB)) &&& 0xFFFFFFFE)
    else
      let result :=
        if name = "addi" then u32 (ir.RA + ir.RB)
        else if name = "andi" then ir.RA &&& ir.RB
        else if name = "ori" then ir.RA ||| ir.RB
        else if name = "xori" then ir.RA ^^^ ir.RB
        else if name = "slti" then (if toInt32 ir.RA < toInt32 ir.RB then 1 else 0)
        else if name = "sltiu" then (if ir.RA < ir.RB then 1 else 0)
        else if name = "slli" then u32 (ir.RA <<< (ir.RB &&& 0x1F))
        else if name = "srli" then ir.RA >>> (ir.RB &&& 0x1F)
        else if name = "srai" then ofInt32 ((toInt32 ir.RA).fdiv (2 ^ (ir.RB &&& 0x1F)))
        else 0
      Except.ok ({ ir with RY := result }, PC)
  | none =>
  match sTypeEncoding.find? (fun e => e.2.1 == node.opcode && e.2.2 == node.func3) with
  | some _ =>
    Except.ok ({ ir with RY := u32 (ir.RA + ir.RB) }, PC)
  | none =>
  match sbTypeEncoding.find? (fun e => e.2.1 == node.opcode && e.2.2 == node.func3) with
  | some e =>
    let name := e.1
    let branchTaken :=
      if name = "beq" then ir.RA == ir.RB
      else if name = "bne" then ir.RA != ir.RB
      else if name = "blt" then decide (toInt32 ir.RA < toInt32 ir.RB)
      else if name = "bge" then decide (toInt32 ir.RA ≥ toInt32 ir.RB)
      else if name = "bltu" then decide (ir.RA < ir.RB)
      else decide (ir.RA ≥ ir.RB)
    let PC := if branchTaken then u32 (node.PC + ir.RB) else PC
    Except.ok ({ ir with RY := if branchTaken then 1 else 0 }, PC)
  | none =>
  match uTypeEncoding.find? (fun e => e.2 == node.opcode) with
  | some e =>
    let result := if e.1 = "lui" then ir.RB else u32 (node.PC + ir.RB)
    Except.ok ({ ir with RY := result }, PC)
  | none =>
  match ujTypeEncoding.find? (fun e => e.2 == node.opcode) with
  | some e =>
    if e.1 = "jal" then
      Except.ok ({ ir with RY := PC }, u32 (node.PC + ir.RB))
    else
      Except.ok ({ ir with RY := 0 }, PC)
  | none => Except.error "The Instruction is not executed"

/-- Embeds `memoryAccess` (execution.hpp): RZ first mirrors RY; LB/LH/LW
bounds-check with `isValidAddress` and read 1/2/4 little-endian bytes from
the sparse data map (absent keys read 0 by `std::unordered_map` semantics,
which the total function models) with sign extension per width; SB/SH/SW
write 1/2/4 bytes of RM at the address WITHOUT any bounds check, exactly as
the source's S-type branch does; SD matches the table but has no handling
branch and writes nothing; non-memory instructions leave memory untouched. -/
def memoryAccess (node : InstrNode) (ir : InstructionRegisters)
    (dataMap : Nat → Nat) : Except String (InstructionRegisters × (Nat → Nat)) :=
  let address := ir.RY
  let ir := { ir with RZ := ir.RY }
  match iTypeEncoding.find? (fun e => e.2.1 == node.opcode && e.2.2 == node.func3) with
  | some e =>
    let name := e.1
    if name = "lb" then
      match isValidAddress address 1 with
      | Except.error msg => Except.error msg
      | Except.ok _ => Except.ok ({ ir with RZ := sext8 (dataMap address) }, dataMap)
    else if name = "lh" then
      match isValidAddress address 2 with
      | Except.error msg => Except.error msg
      | Except.ok _ =>
        Except.ok ({ ir with RZ := sext16 ((dataMap (address + 1)) <<< 8 ||| dataMap address) }, dataMap)
    else if name = "lw" then
      match isValidAddress address 4 with
      | Except.error msg => Except.error msg
      | Except.ok _ =>
        Except.ok ({ ir with RZ :=
          ((dataMap (address + 3)) <<< 24) ||| ((dataMap (address + 2)) <<< 16) |||
          ((dataMap (address + 1)) <<< 8) ||| dataMap address }, dataMap)
    else
      Except.ok (ir, dataMap)
  | none =>
  match sTypeEncoding.find? (fun e => e.2.1 == node.opcode && e.2.2 == node.func3) with
  | some e =>
    let name := e.1
    let valueToStore := ir.RM
    if name = "sb" then
      Except.ok (ir, upd dataMap address (valueToStore &&& 0xFF))
    else if name = "sh" then
      Except.ok (ir, upd (upd dataMap address (valueToStore &&& 0xFF))
                        (address + 1) ((valueToStore >>> 8) &&& 0xFF))
    else if name = "sw" then
      Except.ok (ir, upd (upd (upd (upd dataMap address (valueToStore &&& 0xFF))
                        (address + 1) ((valueToStore >>> 8) &&& 0xFF))
                        (address + 2) ((valueToStore >>> 16) &&& 0xFF))
                        (address + 3) ((valueToStore >>> 24) &&& 0xFF))
    else
      Except.ok (ir, dataMap)
  | none => Except.ok (ir, dataMap)

/-- Embeds `writeback` (execution.hpp): commit RZ to register rd for
R/I/U/UJ when rd is nonzero (S and SB never write), then unconditionally
re-pin register 0 to zero. The C++ `default` throw is unreachable because
the variant enum is total here. -/
def writeback (node : InstrNode) (ir : InstructionRegisters)
    (registers : Nat → Nat) : Nat → Nat :=
  let registers :=
    if node.rd ≠ 0 then
      match node.instructionType with
      | InstructionType.R | InstructionType.I | InstructionType.U
      | InstructionType.UJ => upd registers node.rd ir.RZ
      | InstructionType.S | InstructionType.SB => registers
    else registers
  upd registers 0 0

/-- Embeds `fetchInstruction` (execution.hpp): validate PC, look it up in
the text map; on a hit build the record (classification may raise), advance
PC by `INSTRUCTION_SIZE`; on a miss the record's word stays 0 and `running`
is cleared (modelled by returning `none`), PC unchanged. -/
def fetchInstruction (PC : Nat) (textMap : List (Nat × Nat)) :
    Except String (Option InstrNode × Nat) :=
  match isValidAddress PC 4 with
  | Except.error msg => Except.error msg
  | Except.ok _ =>
    match textMap.find? (fun p => p.1 == PC) with
    | some p =>
      match classifyInstructions p.2 with
      | Except.error msg => Except.error msg
      | Except.ok ty =>
        Except.ok (some { instruction := p.2, instructionType := ty, PC := PC }, PC + INSTRUCTION_SIZE)
    | none => Except.ok (none, PC)

/-- Architectural state threaded by the sequential (non-pipelined) run:
program counter, register file, data memory, the persistent inter-stage
register bundle, and the running flag. -/
structure SeqState where
  PC : Nat
  registers : Nat → Nat
  dataMap : Nat → Nat
  iregs : InstructionRegisters
  running : Bool

/-- One full instruction pass of the non-pipelined execution mode: the
scheduler (simulator.hpp) sends a single in-flight record through
fetch, decode, execute, memory and writeback of execution.hpp, with at most
one record alive at a time; this composes those five stage functions. -/
def seqCycle (textMap : List (Nat × Nat)) (s : SeqState) : Except String SeqState :=
  match fetchInstruction s.PC textMap with
  | Except.error e => Except.error e
  | Except.ok (none, _) => Except.ok { s with running := false }
  | Except.ok (some node, PC1) =>
    let (node2, ir1) := decodeInstruction node s.iregs s.registers
    match executeInstruction node2 ir1 PC1 with
    | Except.error e => Except.error e
    | Except.ok (ir2, PC2) =>
      match memoryAccess node2 ir2 s.dataMap with
      | Except.error e => Except.error e
      | Except.ok (ir3, dm) =>
        Except.ok { PC := PC2, registers := writeback node2 ir3 s.registers,
                    dataMap := dm, iregs := ir3, running := true }

/-- Fuel-bounded iteration of `seqCycle` while the running flag holds,
mirroring the run loop bounded by `MAX_STEPS`. -/
def seqRun (textMap : List (Nat × Nat)) : Nat → SeqState → Except String SeqState
  | 0, s => Except.ok s
  | fuel + 1, s =>
    if s.running then
      match seqCycle textMap s with
      | Except.error e => Except.error e
      | Except.ok s' => seqRun textMap fuel s'
    else Except.ok s

/-- Fresh architectural state at the text-segment base, as built by the
simulator constructor and `reset`. -/
def initialSeqState : SeqState :=
  { PC := TEXT_SEGMENT_START, registers := initialiseRegisters,
    dataMap := fun _ => 0, iregs := {}, running := true }

/-- Register rd of the final state of a run, when the run succeeded. -/
def regOf (e : Except String SeqState) (i : Nat) : Option Nat :=
  match e with
  | Except.ok s => some (s.registers i)
  | Except.error _ => none

/-- Final PC of a run, when the run succeeded. -/
def pcOf (e : Except String SeqState) : Option Nat :=
  match e with
  | Except.ok s => some s.PC
  | Except.error _ => none

/-- One in-flight destination-register dependency (`RegisterDependency`). -/
structure Dep where
  reg : Nat
  pc : Nat
  stage : Stage
  opcode : Nat
  value : Nat
deriving DecidableEq, Repr

/-- Per-operand forwarding flags (`ForwardingStatus`). -/
structure ForwardingStatus where
  raForwarded : Bool := false
  rbForwarded : Bool := false
  rmForwarded : Bool := false
deriving DecidableEq, Repr

/-- An opcode whose low seven bits are 0x03 marks a load-producing
dependency in `applyDataForwarding`. -/
def isLoadOpcode (op : Nat) : Bool := (op &&& 0x7F) == 0x03

/-- Embeds the rs1 if-statement of the first loop of
`Simulator::applyDataForwarding` (simulator.hpp): forward the dependency's
value into RA when it matches a nonzero rs1. -/
def exForwardRs1 (node : InstrNode) (dep : Dep)
    (st : InstructionRegisters × ForwardingStatus) : InstructionRegisters × ForwardingStatus :=
  if node.rs1 ≠ 0 ∧ node.rs1 = dep.reg then
    ({ st.1 with RA := dep.value }, { st.2 with raForwarded := true })
  else st

/-- Embeds the rs2 if-statement of the first loop of
`Simulator::applyDataForwarding`: for an R/S/SB consumer whose nonzero rs2
matches, forward into RM when the consumer is S-type, into RB otherwise. -/
def exForwardRs2 (node : InstrNode) (dep : Dep)
    (st : InstructionRegisters × ForwardingStatus) : InstructionRegisters × ForwardingStatus :=
  if (node.instructionType = InstructionType.R ∨ node.instructionType = InstructionType.S ∨
      node.instructionType = InstructionType.SB) ∧ node.rs2 ≠ 0 ∧ node.rs2 = dep.reg then
    if node.instructionType = InstructionType.S then
      ({ st.1 with RM := dep.value }, { st.2 with rmForwarded := true })
    else
      ({ st.1 with RB := dep.value }, { st.2 with rbForwarded := true })
  else st

/-- Embeds the body of the first loop of `Simulator::applyDataForwarding`:
an EXECUTE-stage, non-x0, non-load dependency runs the rs1 then the rs2
forwarding statements. -/
def exForward (node : InstrNode) (dep : Dep)
    (st : InstructionRegisters × ForwardingStatus) : InstructionRegisters × ForwardingStatus :=
  if dep.stage = Stage.EXECUTE ∧ dep.reg ≠ 0 ∧ ¬ isLoadOpcode dep.opcode then
    exForwardRs2 node dep (exForwardRs1 node dep st)
  else st

/-- Embeds the rs1 if-statement of the second loop of
`Simulator::applyDataForwarding`: forward into RA only when RA was not
already forwarded by the first loop. -/
def memForwardRs1 (node : InstrNode) (dep : Dep)
    (st : InstructionRegisters × ForwardingStatus) : InstructionRegisters × ForwardingStatus :=
  if node.rs1 ≠ 0 ∧ node.rs1 = dep.reg ∧ ¬ st.2.raForwarded then
    ({ st.1 with RA := dep.value }, { st.2 with raForwarded := true })
  else st

/-- Embeds the rs2 if-statement of the second loop of
`Simulator::applyDataForwarding`: forward into RM or RB only when neither
RB nor RM was already forwarded. -/
def memForwardRs2 (node : InstrNode) (dep : Dep)
    (st : InstructionRegisters × ForwardingStatus) : InstructionRegisters × ForwardingStatus :=
  if (node.instructionType = InstructionType.R ∨ node.instructionType = InstructionType.S ∨
      node.instructionType = InstructionType.SB) ∧ node.rs2 ≠ 0 ∧ node.rs2 = dep.reg ∧
      ¬ st.2.rbForwarded ∧ ¬ st.2.rmForwarded then
    if node.instructionType = InstructionType.S then
      ({ st.1 with RM := dep.value }, { st.2 with rmForwarded := true })
    else
      ({ st.1 with RB := dep.value }, { st.2 with rbForwarded := true })
  else st

/-- Embeds the body of the second loop of `Simulator::applyDataForwarding`:
a MEMORY-stage, non-x0 dependency (loads included) runs the flag-gated rs1
then rs2 forwarding statements. -/
def memForward (node : InstrNode) (dep : Dep)
    (st : InstructionRegisters × ForwardingStatus) : InstructionRegisters × ForwardingStatus :=
  if dep.stage = Stage.MEMORY ∧ dep.reg ≠ 0 then
    memForwardRs2 node dep (memForwardRs1 node dep st)
  else st

/-- Embeds `Simulator::applyDataForwarding` (simulator.hpp): a no-op unless
both pipelining and forwarding are on; otherwise the forwarding flags are
reset and the dependency snapshot is walked twice, first applying every
EXECUTE-stage (EX to EX) forward, then every MEMORY-stage (MEM to EX)
forward gated on the flags the first walk set. -/
def applyDataForwarding (isPipeline isDataForwarding : Bool) (node : InstrNode)
    (depsSnapshot : List Dep) (ir : InstructionRegisters) (fs : ForwardingStatus) :
    InstructionRegisters × ForwardingStatus :=
  if ¬ isPipeline ∨ ¬ isDataForwarding then (ir, fs)
  else
    let st := depsSnapshot.foldl (fun st dep => exForward node dep st) (ir, {})
    depsSnapshot.foldl (fun st dep => memForward node dep st) st

/-- The latches and counters touched by the mispredict path in
`Simulator::advancePipeline`: the current pipeline's IF and DEC slots
(cleared by `flushPipeline`), the next pipeline's IF and DEC slots (nulled
inline), the control-hazard counters and the flush statistics. -/
structure CtrlState where
  oldFetch : Option InstrNode
  oldDecode : Option InstrNode
  newFetch : Option InstrNode
  newDecode : Option InstrNode
  controlHazards : Nat
  controlHazardStalls : Nat
  pipelineFlushes : Nat
  isFlushed : Bool
deriving DecidableEq, Repr

/-- Embeds `Simulator::flushPipeline` (simulator.hpp): a no-op when not
pipelined; otherwise the IF and DEC slots of the current pipeline are
emptied, `pipelineFlushes` is incremented and the flushed flag raised. -/
def flushPipeline (isPipeline : Bool) (s : CtrlState) : CtrlState :=
  if ¬ isPipeline then s
  else { s with oldFetch := none, oldDecode := none,
                pipelineFlushes := s.pipelineFlushes + 1, isFlushed := true }

/-- Embeds the branch-resolution tail of the EXECUTE case of
`Simulator::advancePipeline` (simulator.hpp lines 603-619), which runs when
pipelining is on and the record is a branch or jump: a mispredict is
declared exactly when the PHT prediction differs from the actual outcome,
and then the pipeline is flushed, the next IF and DEC slots are nulled, and
`controlHazards` and `controlHazardStalls` are each incremented. -/
def resolveMispredict (isPipeline : Bool) (predictedTaken taken : Bool)
    (s : CtrlState) : CtrlState :=
  if predictedTaken != taken then
    let s := flushPipeline isPipeline s
    { s with newFetch := none, newDecode := none,
             controlHazards := s.controlHazards + 1,
             controlHazardStalls := s.controlHazardStalls + 1 }
  else s

/-- Follows the words of the claim, for comparison with the source's test:
a mispredict is declared when predicted_taken differs from actual_taken,
or, for a JALR, when the predicted target differs from the resolved
target. -/
def claimedMispredictCondition (isJalr predictedTaken taken : Bool)
    (predictedTarget resolvedTarget : Nat) : Bool :=
  (predictedTaken != taken) || (isJalr && (predictedTarget != resolvedTarget))

/-- Write one keyed entry of the structured log channel, as the C++
`logs[code] = message` map assignment does. -/
def updLog (logs : Nat → Option String) (k : Nat) (v : String) : Nat → Option String :=
  fun j => if j = k then some v else logs j

/-- The slice of simulator state that `Simulator::step` reads and writes
around its call to `advancePipeline`: the running flag, the log channel and
the termination flag of the UI response. -/
structure StepState where
  running : Bool
  logs : Nat → Option String
  isProgramTerminated : Bool

/-- Embeds `Simulator::step` (simulator.hpp): the cycle body
(`advancePipeline` together with the per-stage work it calls) either yields
an updated state or raises a runtime error; step catches the error, logs it
under code 404 prefixed as in the source, clears `running`, marks the
program terminated and returns false, so no exception reaches the host.
On a normal cycle it returns true while running, and false with a code-200
completion entry once running is cleared (the statistics text the pipelined
mode appends to that entry is omitted here). -/
def step (s : StepState) (cycleResult : Except String StepState) : Bool × StepState :=
  match cycleResult with
  | Except.error e =>
      (false, { s with
                running := false, isProgramTerminated := true,
                logs := updLog s.logs 404 ("Runtime error during step execution: " ++ e) })
  | Except.ok s' =>
      if ¬ s'.running then
        (false, { s' with
                  isProgramTerminated := true,
                  logs := updLog s'.logs 200 "Program execution completed" })
      else (true, s')

/-- Cumulative statistics (`SimulationStats`); the derived floating-point
`cyclesPerInstruction` field is omitted from the model. -/
structure SimStats where
  totalCycles : Nat := 0
  stallBubbles : Nat := 0
  dataHazards : Nat := 0
  controlHazards : Nat := 0
  dataHazardStalls : Nat := 0
  controlHazardStalls : Nat := 0
  pipelineFlushes : Nat := 0
  dataTransferInstructions : Nat := 0
  aluInstructions : Nat := 0
  controlInstructions : Nat := 0
  instructionsExecuted : Nat := 0
deriving DecidableEq, Repr

/-- Modelled from the spec: branch-predictor state (PHT of saturating
counters, BTB of targets, prediction counts) whose concrete container lives
in the missing `types.hpp`; `BranchPredictor::reset` restores this default. -/
structure Predictor where
  pht : Nat → Nat := fun _ => 0
  btb : Nat → Option Nat := fun _ => none
  predictions : Nat := 0
  mispredictions : Nat := 0

/-- Per-step UI status flags (`UIResponse`). -/
structure UIResponse where
  isStalled : Bool := false
  isFlushed : Bool := false
  isDataForwarded : Bool := false
  isProgramTerminated : Bool := false
deriving DecidableEq, Repr

/-- The complete simulator state (`class Simulator`, simulator.hpp): the
five latch slots, the architectural state, the mode switches, dependency
table, statistics, predictor, logs and counters. -/
structure Sim where
  PC : Nat
  registers : Nat → Nat
  dataMap : Nat → Nat
  textMap : List (Nat × Nat)
  fetchSlot : Option InstrNode
  decodeSlot : Option InstrNode
  executeSlot : Option InstrNode
  memorySlot : Option InstrNode
  writebackSlot : Option InstrNode
  instructionRegisters : InstructionRegisters
  forwardingStatus : ForwardingStatus
  uiResponse : UIResponse
  running : Bool
  isPipeline : Bool
  isDataForwarding : Bool
  stats : SimStats
  registerDependencies : List Dep
  predictor : Predictor
  logs : Nat → Option String
  instructionCount : Nat

/-- Embeds `Simulator::reset` (simulator.hpp): empty every latch slot,
restore the datapath registers, register file, dependency table, both
memory images and the logs, reset PC to the text base, stop the run, and
reinitialise statistics, forwarding status, UI response, predictor and the
instruction counter. The mode switches `isPipeline` and `isDataForwarding`
are not touched. -/
def resetSim (s : Sim) : Sim :=
  { s with
    fetchSlot := none, decodeSlot := none, executeSlot := none,
    memorySlot := none, writebackSlot := none,
    instructionRegisters := {},
    registers := initialiseRegisters,
    registerDependencies := [],
    dataMap := fun _ => 0,
    textMap := [],
    logs := fun _ => none,
    PC := TEXT_SEGMENT_START,
    running := false,
    stats := {},
    forwardingStatus := {},
    uiResponse := {},
    predictor := {},
    instructionCount := 0 }

/-- Modelled from the spec: the outcome of the Lexer, Parser and Assembler
collaborators consumed by `loadProgram`; their sources are not part of the
core ("treated as external collaborators"), so only their observable result
is represented: empty input, a failing parse or assembly with an error
count, or an assembled machine-code image mapping addresses to values. -/
inductive FrontendResult where
  | emptyTokens
  | parseFailure (errors : Nat)
  | assembleFailure (errors : Nat)
  | assembled (machineCode : List (Nat × Nat))

/-- An instruction word that `parseInstructions` (execution.hpp) can
disassemble without raising; its match conditions over the six encoding
tables are the same as those of `classifyInstructions`. -/
def parseOk (w : Nat) : Bool :=
  match classifyInstructions w with
  | Except.ok _ => true
  | Except.error _ => false

/-- The data image built by the `loadProgram` filling loop: machine-code
entries at or above the data segment land in the byte map, truncated to a
byte as `static_cast<uint8_t>` does. -/
def buildDataMap (mc : List (Nat × Nat)) : Nat → Nat :=
  mc.foldl (fun dm p => if p.1 ≥ DATA_SEGMENT_START then upd dm p.1 (p.2 % 256) else dm)
    (fun _ => 0)

/-- The text image built by the `loadProgram` filling loop: machine-code
entries below the data segment keep their word (the attached disassembly
string is not modelled); the assembler's map has unique keys. -/
def buildTextMap (mc : List (Nat × Nat)) : List (Nat × Nat) :=
  mc.filter (fun p => ¬ p.1 ≥ DATA_SEGMENT_START)

/-- A fresh `InstructionNode(pc)` as seeded into the FETCH slot: only the
fetch PC is meaningful, the word and fields are filled at IF and DEC. -/
def freshNode (pc : Nat) : InstrNode :=
  { instruction := 0, instructionType := InstructionType.R, PC := pc }

/-- Embeds `Simulator::loadProgram` (simulator.hpp): remember the two mode
switches, reset, restore them and start running; then consume the frontend
outcome. Empty input logs code 300 and fails; parse or assembly failures
log code 404 and fail; otherwise the data and text images are filled from
the machine code, PC returns to the text base, a success entry is logged
and a fresh record is seeded into FETCH. A word the disassembler rejects
raises inside the filling loop and is caught by the surrounding try-block,
which logs code 404 and fails (the model keeps the fully built images on
this path where the C++ keeps partially built ones; no claim observes
them). -/
def loadProgram (s : Sim) (front : FrontendResult) : Bool × Sim :=
  let wasPipeline := s.isPipeline
  let wasDataForwarding := s.isDataForwarding
  let s1 := resetSim s
  let s1 := { s1 with
              isPipeline := wasPipeline, isDataForwarding := wasDataForwarding,
              running := true }
  match front with
  | FrontendResult.emptyTokens =>
      (false, { s1 with logs := updLog s1.logs 300 "Empty Code" })
  | FrontendResult.parseFailure _ =>
      (false, { s1 with logs := updLog s1.logs 404 "Parsing failed" })
  | FrontendResult.assembleFailure _ =>
      (false, { s1 with logs := updLog s1.logs 404 "Assembly failed" })
  | FrontendResult.assembled mc =>
      if mc.all (fun p => p.1 ≥ DATA_SEGMENT_START || parseOk p.2) then
        (true, { s1 with
                 dataMap := buildDataMap mc, textMap := buildTextMap mc,
                 PC := TEXT_SEGMENT_START, instructionCount := 0,
                 logs := updLog s1.logs 200 "Program loaded successfully",
                 fetchSlot := some (freshNode TEXT_SEGMENT_START) })
      else
        (false, { s1 with
                  dataMap := buildDataMap mc, textMap := buildTextMap mc,
                  logs := updLog s1.logs 404 "Error: The Instruction is not valid" })

/-- Observer: did a memory-unit invocation complete without raising. -/
def memOk (e : Except String (InstructionRegisters × (Nat → Nat))) : Bool :=
  match e with
  | Except.ok _ => true
  | Except.error _ => false

/-- Observer: the RZ datapath register after a memory-unit invocation. -/
def rzOf (e : Except String (InstructionRegisters × (Nat → Nat))) : Option Nat :=
  match e with
  | Except.ok p => some p.1.RZ
  | Except.error _ => none

/-- Observer: the data image after a memory-unit invocation. -/
def dmOf (e : Except String (InstructionRegisters × (Nat → Nat))) : Option (Nat → Nat) :=
  match e with
  | Except.ok p => some p.2
  | Except.error _ => none

/-- A dependency that the first (EX to EX) loop of `applyDataForwarding`
forwards into RA of the given consumer: EXECUTE stage, non-x0, non-load
producer matching a nonzero rs1. -/
def raExMatch (node : InstrNode) (d : Dep) : Bool :=
  (d.stage == Stage.EXECUTE) && (d.reg != 0) && (! isLoadOpcode d.opcode) &&
  (node.rs1 != 0) && (node.rs1 == d.reg)

/-- A dependency that the first (EX to EX) loop of `applyDataForwarding`
forwards into the rs2 operand (RB or RM) of the given R/S/SB consumer. -/
def rs2ExMatch (node : InstrNode) (d : Dep) : Bool :=
  (d.stage == Stage.EXECUTE) && (d.reg != 0) && (! isLoadOpcode d.opcode) &&
  (node.instructionType == InstructionType.R || node.instructionType == InstructionType.S ||
   node.instructionType == InstructionType.SB) &&
  (node.rs2 != 0) && (node.rs2 == d.reg)

/-- The data image after the memory unit performs SW of word W at address
A: the four bytes of W laid out little-endian, exactly the four updates of
the SW branch of `memoryAccess`. -/
def swImage (W A : Nat) (dm : Nat → Nat) : Nat → Nat :=
  upd (upd (upd (upd dm A (W &&& 0xFF)) (A + 1) ((W >>> 8) &&& 0xFF))
    (A + 2) ((W >>> 16) &&& 0xFF)) (A + 3) ((W >>> 24) &&& 0xFF)

/-- A sample simulator state with deliberately nonstandard contents in
every component, used to instantiate the frame theorems at a concrete
input. -/
def sampleSim : Sim :=
  { PC := 1234, registers := fun _ => 9, dataMap := fun _ => 7,
    textMap := [(0, 1)], fetchSlot := some (freshNode 4),
    decodeSlot := some (freshNode 8), executeSlot := none, memorySlot := none,
    writebackSlot := none, instructionRegisters := { RA := 1 },
    forwardingStatus := { raForwarded := true }, uiResponse := { isStalled := true },
    running := true, isPipeline := false, isDataForwarding := true,
    stats := { totalCycles := 5 },
    registerDependencies := [{ reg := 1, pc := 0, stage := Stage.DECODE, opcode := 0x13, value := 3 }],
    predictor := {}, logs := fun _ => some "old", instructionCount := 9 }

/-!
Theorems. Helper lemmas come first, then one theorem per claim of the
specification review, each with its witness or counterexample where due.
-/

/-- Helper: `writeback` always leaves register 0 at zero, because its final
action re-pins it. -/
theorem writeback_reg0 (n : InstrNode) (ir : InstructionRegisters) (r : Nat → Nat) :
    writeback n ir r 0 = 0 := by
  simp [writeback, upd]

/-- Helper: one sequential instruction pass preserves the zero of register 0. -/
theorem seqCycle_reg0 (tm : List (Nat × Nat)) (s s' : SeqState)
    (h : seqCycle tm s = Except.ok s') (h0 : s.registers 0 = 0) :
    s'.registers 0 = 0 := by
  unfold seqCycle at h
  repeat' split at h
  case _ => exact absurd h (by simp)
  case _ => injection h with h2
            subst h2
            exact h0
  case _ => exact absurd h (by simp)
  case _ => exact absurd h (by simp)
  case _ => injection h with h2
            subst h2
            simp [writeback, upd]

/-- Helper: the sequential run preserves the zero of register 0. -/
theorem seqRun_reg0 (fuel : Nat) :
    ∀ (tm : List (Nat × Nat)) (s s' : SeqState),
      s.registers 0 = 0 → seqRun tm fuel s = Except.ok s' → s'.registers 0 = 0 := by
  induction fuel with
  | zero =>
    intro tm s s' h0 h
    cases h
    exact h0
  | succ k ih =>
    intro tm s s' h0 h
    unfold seqRun at h
    by_cases hr : s.running
    · simp only [hr, if_true] at h
      cases hc : seqCycle tm s with
      | error e => rw [hc] at h; exact absurd h (by simp)
      | ok s2 => rw [hc] at h; exact ih tm s2 s' (seqCycle_reg0 tm s s2 hc h0) h
    · simp only [hr, if_false] at h
      cases h
      exact h0

/-- C2: at EX (execution.hpp), JAL writes the next sequential PC after the
jump (recordPC + 4, which is the live PC when a single record is in
flight) into RY and redirects PC to recordPC + imm; JALR writes the PC of
the next instruction into RY and redirects PC to (RA + imm) with the low
bit cleared. Concretely, running `jal x1, +12` at PC 0 followed by
`jalr x0, 0(x1)` at PC 12 ends with x1 = 4 (the JAL's PC + 4) and the
final PC at 4, the instruction after the JAL. -/
theorem exec_jal_jalr_link :
    (∀ (n : InstrNode) (ir : InstructionRegisters) (PC : Nat),
       n.opcode = 0x6F → PC = u32 (n.PC + 4) →
       executeInstruction n ir PC =
         Except.ok ({ ir with RY := u32 (n.PC + 4) }, u32 (n.PC + ir.RB))) ∧
    (∀ (n : InstrNode) (ir : InstructionRegisters) (PC : Nat),
       n.opcode = 0x67 → n.func3 = 0 → PC = u32 (n.PC + 4) →
       executeInstruction n ir PC =
         Except.ok ({ ir with RY := u32 (n.PC + 4) }, (u32 (ir.RA + ir.RB)) &&& 0xFFFFFFFE)) ∧
    regOf (seqRun [(0, 0x00C000EF), (12, 0x00008067)] 6 initialSeqState) 1 = some 4 ∧
    pcOf (seqRun [(0, 0x00C000EF), (12, 0x00008067)] 6 initialSeqState) = some 4 := by
  refine ⟨?_, ?_, by decide, by decide⟩
  · intro n ir PC h hPC
    simp [executeInstruction, rTypeEncoding, iTypeEncoding, sTypeEncoding, sbTypeEncoding,
          uTypeEncoding, ujTypeEncoding, List.find?, h, hPC]
  · intro n ir PC h h3 hPC
    simp [executeInstruction, rTypeEncoding, iTypeEncoding, List.find?, h, h3, hPC]

/-- Witness for C2: the JAL conclusion applied to the concrete record of
`jal x1, +12` fetched at PC 0 with its decoded immediate 12. -/
theorem exec_jal_jalr_link_witness :
    executeInstruction
      { instruction := 0x00C000EF, instructionType := InstructionType.UJ, PC := 0,
        opcode := 0x6F, func3 := 0, func7 := 0, rd := 1, rs1 := 0, rs2 := 12 }
      { RB := 12 } 4 =
      Except.ok ({ RA := 0, RB := 12, RM := 0, RY := 4, RZ := 0 }, 12) := by
  have h := exec_jal_jalr_link.1
    { instruction := 0x00C000EF, instructionType := InstructionType.UJ, PC := 0,
      opcode := 0x6F, func3 := 0, func7 := 0, rd := 1, rs1 := 0, rs2 := 12 }
    { RB := 12 } 4 rfl (by decide)
  simpa using h

/-- C5: in the R-type execute unit (execution.hpp), DIV with divisor RB = 0
yields 0xFFFFFFFF and REM with divisor 0 yields the dividend RA; with a
nonzero divisor they compute the truncated signed quotient and remainder
reduced to 32 bits. Concretely, the four-instruction program
`addi x5,x0,7; addi x6,x0,0; div x7,x5,x6; rem x8,x5,x6` ends with
x7 = 0xFFFFFFFF and x8 = 7. -/
theorem div_rem_semantics :
    (∀ (n : InstrNode) (ir : InstructionRegisters) (PC : Nat),
       n.opcode = 0x33 → n.func3 = 4 → n.func7 = 1 → ir.RB = 0 →
       executeInstruction n ir PC = Except.ok ({ ir with RY := 0xFFFFFFFF }, PC)) ∧
    (∀ (n : InstrNode) (ir : InstructionRegisters) (PC : Nat),
       n.opcode = 0x33 → n.func3 = 6 → n.func7 = 1 → ir.RB = 0 →
       executeInstruction n ir PC = Except.ok ({ ir with RY := ir.RA }, PC)) ∧
    (∀ (n : InstrNode) (ir : InstructionRegisters) (PC : Nat),
       n.opcode = 0x33 → n.func3 = 4 → n.func7 = 1 → ir.RB ≠ 0 →
       executeInstruction n ir PC =
         Except.ok ({ ir with RY := ofInt32 ((toInt32 ir.RA).tdiv (toInt32 ir.RB)) }, PC)) ∧
    (∀ (n : InstrNode) (ir : InstructionRegisters) (PC : Nat),
       n.opcode = 0x33 → n.func3 = 6 → n.func7 = 1 → ir.RB ≠ 0 →
       executeInstruction n ir PC =
         Except.ok ({ ir with RY := ofInt32 ((toInt32 ir.RA).tmod (toInt32 ir.RB)) }, PC)) ∧
    regOf (seqRun [(0, 0x00700293), (4, 0x00000313), (8, 0x0262C3B3), (12, 0x0262E433)]
      6 initialSeqState) 7 = some 0xFFFFFFFF ∧
    regOf (seqRun [(0, 0x00700293), (4, 0x00000313), (8, 0x0262C3B3), (12, 0x0262E433)]
      6 initialSeqState) 8 = some 7 := by
  refine ⟨?_, ?_, ?_, ?_, by decide, by decide⟩ <;>
    intro n ir PC h h3 h7 hb <;>
    simp [executeInstruction, rTypeEncoding, List.find?, h, h3, h7, hb]

/-- Witness for C5: DIV by zero applied to the concrete decoded record of
`div x7, x5, x6` with RA = 7, RB = 0. -/
theorem div_rem_semantics_witness :
    executeInstruction
      { instruction := 0x0262C3B3, instructionType := InstructionType.R, PC := 8,
        opcode := 0x33, func3 := 4, func7 := 1, rd := 7, rs1 := 5, rs2 := 6 }
      { RA := 7, RB := 0 } 12 =
      Except.ok ({ RA := 7, RB := 0, RM := 0, RY := 0xFFFFFFFF, RZ := 0 }, 12) :=
  div_rem_semantics.1
    { instruction := 0x0262C3B3, instructionType := InstructionType.R, PC := 8,
      opcode := 0x33, func3 := 4, func7 := 1, rd := 7, rs1 := 5, rs2 := 6 }
    { RA := 7, RB := 0 } 12 rfl rfl rfl rfl

/-- C6: register 0 is invariantly zero. The initial register file has
register 0 = 0; the writeback unit leaves register 0 at zero after every
commit; an instruction whose destination is rd = 0 is a no-op on the
register file at writeback; and any fuel-bounded sequential run started
with register 0 = 0 ends with register 0 = 0. -/
theorem register_zero_invariant :
    initialiseRegisters 0 = 0 ∧
    (∀ (n : InstrNode) (ir : InstructionRegisters) (r : Nat → Nat),
       writeback n ir r 0 = 0) ∧
    (∀ (n : InstrNode) (ir : InstructionRegisters) (r : Nat → Nat),
       n.rd = 0 → r 0 = 0 → writeback n ir r = r) ∧
    (∀ (tm : List (Nat × Nat)) (fuel : Nat) (s s' : SeqState),
       s.registers 0 = 0 → seqRun tm fuel s = Except.ok s' → s'.registers 0 = 0) := by
  refine ⟨by decide, writeback_reg0, ?_, fun tm fuel => seqRun_reg0 fuel tm⟩
  intro n ir r hrd h0
  funext j
  by_cases hj : j = 0
  · subst hj
    simp [writeback, hrd, upd, h0]
  · simp [writeback, hrd, upd, hj]

/-- Witness for C6: the rd = 0 no-op conclusion applied to a concrete
SB-type record over the initial register file, and the run invariant
applied to the empty program. -/
theorem register_zero_invariant_witness :
    writeback
      { instruction := 0, instructionType := InstructionType.SB, PC := 0,
        opcode := 0x63, func3 := 0, func7 := 0, rd := 0, rs1 := 1, rs2 := 2 }
      { RZ := 77 } initialiseRegisters = initialiseRegisters ∧
    initialSeqState.registers 0 = 0 := by
  constructor
  · exact register_zero_invariant.2.2.1
      { instruction := 0, instructionType := InstructionType.SB, PC := 0,
        opcode := 0x63, func3 := 0, func7 := 0, rd := 0, rs1 := 1, rs2 := 2 }
      { RZ := 77 } initialiseRegisters rfl (by decide)
  · exact register_zero_invariant.2.2.2 [] 0 initialSeqState initialSeqState (by decide) rfl

/-- C9: `Simulator::step` never lets a runtime error escape: whatever
state the cycle was in, an error outcome of the cycle body makes step
return false with `running` cleared, the termination flag raised and the
error recorded under log code 404. The cited error sources all surface as
such error outcomes: an unclassifiable word (decode failure), the
unsupported LD instruction, and a memory-range violation on a load. -/
theorem step_catches_runtime_errors :
    (∀ (s : StepState) (e : String),
       step s (Except.error e) =
         (false, { s with
                   running := false, isProgramTerminated := true,
                   logs := updLog s.logs 404 ("Runtime error during step execution: " ++ e) })) ∧
    (∀ (s : StepState) (e : String),
       ((step s (Except.error e)).2).running = false ∧
       (step s (Except.error e)).1 = false ∧
       ((step s (Except.error e)).2).logs 404 =
         some ("Runtime error during step execution: " ++ e)) ∧
    classifyInstructions 0x00000007 =
      Except.error "Instruction could not be classified: Invalid opcode" ∧
    (∀ (ir : InstructionRegisters) (PC : Nat),
       executeInstruction
         { instruction := 0x00033383, instructionType := InstructionType.I, PC := 0,
           opcode := 0x03, func3 := 3, func7 := 0, rd := 7, rs1 := 6, rs2 := 0 }
         ir PC = Except.error "ld instruction not supported") ∧
    memOk (memoryAccess
      { instruction := 0, instructionType := InstructionType.I, PC := 0,
        opcode := 0x03, func3 := 2, func7 := 0, rd := 5, rs1 := 3, rs2 := 0 }
      { RY := 0x80000000 } (fun _ => 0)) = false := by
  refine ⟨fun s e => rfl, fun s e => ⟨rfl, rfl, by simp [step, updLog]⟩, rfl, ?_, by decide⟩
  intro ir PC
  simp [executeInstruction, rTypeEncoding, iTypeEncoding, List.find?]

/-- C3 counterexample: a JALR resolved as taken whose predicted target (0)
differs from its resolved target (4) while the PHT also predicted taken.
The claim's condition declares a mispredict, but the source's resolution
step (which compares only predicted_taken with taken) leaves the pipeline
slots and both control-hazard counters untouched. -/
theorem mispredict_jalr_stale_target_missed :
    claimedMispredictCondition true true true 0 4 = true ∧
    resolveMispredict true true true
      { oldFetch := some (freshNode 0), oldDecode := some (freshNode 4),
        newFetch := some (freshNode 8), newDecode := none,
        controlHazards := 0, controlHazardStalls := 0, pipelineFlushes := 0,
        isFlushed := false } =
      { oldFetch := some (freshNode 0), oldDecode := some (freshNode 4),
        newFetch := some (freshNode 8), newDecode := none,
        controlHazards := 0, controlHazardStalls := 0, pipelineFlushes := 0,
        isFlushed := false } := by
  exact ⟨by decide, rfl⟩

/-- C3 (amended): in pipelined mode the EX-stage resolution declares a
mispredict exactly when the PHT prediction differs from the actual
outcome (no target comparison is made, not even for JALR); on a mispredict
the current and next IF and DEC slots are all emptied, `controlHazards`
and `controlHazardStalls` each increase by one, and `pipelineFlushes`
increases by one; otherwise the state is untouched. -/
theorem mispredict_exact_condition_and_flush :
    ∀ (pt tk : Bool) (s : CtrlState),
      resolveMispredict true pt tk s =
        if pt != tk then
          { oldFetch := none, oldDecode := none, newFetch := none, newDecode := none,
            controlHazards := s.controlHazards + 1,
            controlHazardStalls := s.controlHazardStalls + 1,
            pipelineFlushes := s.pipelineFlushes + 1, isFlushed := true }
        else s := by
  intro pt tk s
  cases pt <;> cases tk <;> simp [resolveMispredict, flushPipeline]

/-- C1 counterexample: a SW store whose address range ends past
MEMORY_SIZE (address 0x7FFFFFFF, bytes through 0x80000002) is out of
range, yet the memory unit performs it without raising any error. -/
theorem store_out_of_range_unchecked :
    u32 (0x7FFFFFFF + 4) > MEMORY_SIZE ∧
    memOk (memoryAccess
      { instruction := 0, instructionType := InstructionType.S, PC := 0,
        opcode := 0x23, func3 := 2, func7 := 0, rd := 0, rs1 := 0, rs2 := 5 }
      { RM := 0xDEADBEEF, RY := 0x7FFFFFFF } (fun _ => 0)) = true := by
  exact ⟨by decide, by decide⟩

/-- C1 (amended): in the memory unit, every load is bounds-checked: LB, LH
and LW raise a fatal runtime error exactly when address + width, computed
in 32-bit arithmetic, exceeds MEMORY_SIZE (so a wrap-around past 2^32
escapes the check); stores (SB, SH, SW, and the unhandled SD) perform no
bounds check and never raise. -/
theorem load_bounds_checked_stores_not :
    (∀ (n : InstrNode) (ir : InstructionRegisters) (dm : Nat → Nat),
       n.opcode = 0x03 → n.func3 = 0 →
       (memOk (memoryAccess n ir dm) = false ↔ u32 (ir.RY + 1) > MEMORY_SIZE)) ∧
    (∀ (n : InstrNode) (ir : InstructionRegisters) (dm : Nat → Nat),
       n.opcode = 0x03 → n.func3 = 1 →
       (memOk (memoryAccess n ir dm) = false ↔ u32 (ir.RY + 2) > MEMORY_SIZE)) ∧
    (∀ (n : InstrNode) (ir : InstructionRegisters) (dm : Nat → Nat),
       n.opcode = 0x03 → n.func3 = 2 →
       (memOk (memoryAccess n ir dm) = false ↔ u32 (ir.RY + 4) > MEMORY_SIZE)) ∧
    (∀ (n : InstrNode) (ir : InstructionRegisters) (dm : Nat → Nat),
       n.opcode = 0x23 → n.func3 = 0 ∨ n.func3 = 1 ∨ n.func3 = 2 ∨ n.func3 = 3 →
       memOk (memoryAccess n ir dm) = true) := by
  refine ⟨?_, ?_, ?_, ?_⟩
  · intro n ir dm h h3
    by_cases hc : u32 (ir.RY + 1) > MEMORY_SIZE <;>
      simp [memoryAccess, iTypeEncoding, List.find?, isValidAddress, memOk, h, h3, hc]
  · intro n ir dm h h3
    by_cases hc : u32 (ir.RY + 2) > MEMORY_SIZE <;>
      simp [memoryAccess, iTypeEncoding, List.find?, isValidAddress, memOk, h, h3, hc]
  · intro n ir dm h h3
    by_cases hc : u32 (ir.RY + 4) > MEMORY_SIZE <;>
      simp [memoryAccess, iTypeEncoding, List.find?, isValidAddress, memOk, h, h3, hc]
  · intro n ir dm h h3
    rcases h3 with h3 | h3 | h3 | h3 <;>
      simp [memoryAccess, iTypeEncoding, sTypeEncoding, List.find?, memOk, h, h3]

/-- Witness for C1 (amended): the LB bounds check firing at address
0x80000000, and an SH store completing. -/
theorem load_bounds_checked_stores_not_witness :
    memOk (memoryAccess
      { instruction := 0, instructionType := InstructionType.I, PC := 0,
        opcode := 0x03, func3 := 0, func7 := 0, rd := 5, rs1 := 3, rs2 := 0 }
      { RY := 0x80000000 } (fun _ => 0)) = false ∧
    memOk (memoryAccess
      { instruction := 0, instructionType := InstructionType.S, PC := 0,
        opcode := 0x23, func3 := 1, func7 := 0, rd := 0, rs1 := 0, rs2 := 5 }
      { RM := 0xABCD, RY := 0 } (fun _ => 0)) = true := by
  constructor
  · exact (load_bounds_checked_stores_not.1
      { instruction := 0, instructionType := InstructionType.I, PC := 0,
        opcode := 0x03, func3 := 0, func7 := 0, rd := 5, rs1 := 3, rs2 := 0 }
      { RY := 0x80000000 } (fun _ => 0) rfl rfl).mpr (by decide)
  · exact load_bounds_checked_stores_not.2.2.2
      { instruction := 0, instructionType := InstructionType.S, PC := 0,
        opcode := 0x23, func3 := 1, func7 := 0, rd := 0, rs1 := 0, rs2 := 5 }
      { RM := 0xABCD, RY := 0 } (fun _ => 0) rfl (Or.inr (Or.inl rfl))

/-- Helper: the LB branch of `memoryAccess` on an in-range address reads
one byte and sign-extends it into RZ. -/
theorem memAccess_lb (n : InstrNode) (ir : InstructionRegisters) (dm : Nat → Nat)
    (h : n.opcode = 0x03) (h3 : n.func3 = 0) (hc : ¬ u32 (ir.RY + 1) > MEMORY_SIZE) :
    memoryAccess n ir dm = Except.ok ({ ir with RZ := sext8 (dm ir.RY) }, dm) := by
  simp [memoryAccess, iTypeEncoding, List.find?, isValidAddress, h, h3, hc]

/-- Helper: the LH branch of `memoryAccess` on an in-range address reads
two little-endian bytes and sign-extends the halfword into RZ. -/
theorem memAccess_lh (n : InstrNode) (ir : InstructionRegisters) (dm : Nat → Nat)
    (h : n.opcode = 0x03) (h3 : n.func3 = 1) (hc : ¬ u32 (ir.RY + 2) > MEMORY_SIZE) :
    memoryAccess n ir dm =
      Except.ok ({ ir with RZ := sext16 ((dm (ir.RY + 1)) <<< 8 ||| dm ir.RY) }, dm) := by
  simp [memoryAccess, iTypeEncoding, List.find?, isValidAddress, h, h3, hc]

/-- Helper: the LW branch of `memoryAccess` on an in-range address
assembles four little-endian bytes into RZ. -/
theorem memAccess_lw (n : InstrNode) (ir : InstructionRegisters) (dm : Nat → Nat)
    (h : n.opcode = 0x03) (h3 : n.func3 = 2) (hc : ¬ u32 (ir.RY + 4) > MEMORY_SIZE) :
    memoryAccess n ir dm =
      Except.ok ({ ir with RZ :=
        ((dm (ir.RY + 3)) <<< 24) ||| ((dm (ir.RY + 2)) <<< 16) |||
        ((dm (ir.RY + 1)) <<< 8) ||| dm ir.RY }, dm) := by
  simp [memoryAccess, iTypeEncoding, List.find?, isValidAddress, h, h3, hc]

/-- Helper: the SH branch of `memoryAccess` writes the two low bytes of RM
little-endian, with no bounds check. -/
theorem memAccess_sh (n : InstrNode) (ir : InstructionRegisters) (dm : Nat → Nat)
    (h : n.opcode = 0x23) (h3 : n.func3 = 1) :
    memoryAccess n ir dm =
      Except.ok ({ ir with RZ := ir.RY },
        upd (upd dm ir.RY (ir.RM &&& 0xFF)) (ir.RY + 1) ((ir.RM >>> 8) &&& 0xFF)) := by
  simp [memoryAccess, iTypeEncoding, sTypeEncoding, List.find?, h, h3]

/-- Helper: the SW branch of `memoryAccess` writes the four bytes of RM
little-endian, with no bounds check. -/
theorem memAccess_sw (n : InstrNode) (ir : InstructionRegisters) (dm : Nat → Nat)
    (h : n.opcode = 0x23) (h3 : n.func3 = 2) :
    memoryAccess n ir dm = Except.ok ({ ir with RZ := ir.RY }, swImage ir.RM ir.RY dm) := by
  simp [memoryAccess, iTypeEncoding, sTypeEncoding, List.find?, swImage, h, h3]

/-- Helper: reassembling the four little-endian bytes of a 32-bit word, in
the shift-or shape of the LW branch, returns the word. -/
theorem bytes_recompose (W : Nat) (hW : W < M32) :
    (((W >>> 24) &&& 0xFF) <<< 24) ||| (((W >>> 16) &&& 0xFF) <<< 16) |||
    (((W >>> 8) &&& 0xFF) <<< 8) ||| (W &&& 0xFF) = W := by
  have e255 : (255 : Nat) = 2 ^ 8 - 1 := by norm_num
  have hmod : ∀ x : Nat, x &&& 255 = x % 2 ^ 8 := by
    intro x
    rw [e255]
    exact Nat.and_pow_two_sub_one_eq_mod x 8
  rw [hmod, hmod, hmod, hmod, Nat.shiftRight_eq_div_pow, Nat.shiftRight_eq_div_pow,
      Nat.shiftRight_eq_div_pow, Nat.shiftLeft_eq, Nat.shiftLeft_eq, Nat.shiftLeft_eq,
      Nat.or_assoc, Nat.or_assoc]
  have m0 : W % 2 ^ 8 < 2 ^ 8 := Nat.mod_lt _ (by norm_num)
  have m8 : W / 2 ^ 8 % 2 ^ 8 < 2 ^ 8 := Nat.mod_lt _ (by norm_num)
  have m16 : W / 2 ^ 16 % 2 ^ 8 < 2 ^ 8 := Nat.mod_lt _ (by norm_num)
  rw [Nat.mul_comm (W / 2 ^ 8 % 2 ^ 8) (2 ^ 8), ← Nat.mul_add_lt_is_or m0 (W / 2 ^ 8 % 2 ^ 8)]
  have b8 : 2 ^ 8 * (W / 2 ^ 8 % 2 ^ 8) + W % 2 ^ 8 < 2 ^ 16 := by
    have h1 := m0
    have h2 := m8
    norm_num at h1 h2 ⊢
    omega
  rw [Nat.mul_comm (W / 2 ^ 16 % 2 ^ 8) (2 ^ 16), ← Nat.mul_add_lt_is_or b8 (W / 2 ^ 16 % 2 ^ 8)]
  have b16 : 2 ^ 16 * (W / 2 ^ 16 % 2 ^ 8) + (2 ^ 8 * (W / 2 ^ 8 % 2 ^ 8) + W % 2 ^ 8) < 2 ^ 24 := by
    have h2 := m16
    norm_num at b8 h2 ⊢
    omega
  rw [Nat.mul_comm (W / 2 ^ 24 % 2 ^ 8) (2 ^ 24), ← Nat.mul_add_lt_is_or b16 (W / 2 ^ 24 % 2 ^ 8)]
  have hW' : W < 4294967296 := hW
  norm_num
  omega

/-- C8: loads sign-extend per access width: for in-range addresses LB puts
the sign-extended loaded byte in RZ and LH the sign-extended loaded
halfword. Concretely, after SH stores 0xABCD at any in-range address A (so
the bytes 0xCD at A and 0xAB at A+1), LB at A yields 0xFFFFFFCD and LB at
A+1 yields 0xFFFFFFAB. -/
theorem load_sign_extension :
    (∀ (n : InstrNode) (ir : InstructionRegisters) (dm : Nat → Nat),
       n.opcode = 0x03 → n.func3 = 0 → ¬ u32 (ir.RY + 1) > MEMORY_SIZE →
       memoryAccess n ir dm = Except.ok ({ ir with RZ := sext8 (dm ir.RY) }, dm)) ∧
    (∀ (n : InstrNode) (ir : InstructionRegisters) (dm : Nat → Nat),
       n.opcode = 0x03 → n.func3 = 1 → ¬ u32 (ir.RY + 2) > MEMORY_SIZE →
       memoryAccess n ir dm =
         Except.ok ({ ir with RZ := sext16 ((dm (ir.RY + 1)) <<< 8 ||| dm ir.RY) }, dm)) ∧
    (∀ (A : Nat) (dm : Nat → Nat), A + 2 ≤ MEMORY_SIZE →
       dmOf (memoryAccess
         { instruction := 0, instructionType := InstructionType.S, PC := 0,
           opcode := 0x23, func3 := 1, func7 := 0, rd := 0, rs1 := 3, rs2 := 5 }
         { RM := 0xABCD, RY := A } dm) = some (upd (upd dm A 0xCD) (A + 1) 0xAB) ∧
       rzOf (memoryAccess
         { instruction := 0, instructionType := InstructionType.I, PC := 0,
           opcode := 0x03, func3 := 0, func7 := 0, rd := 5, rs1 := 3, rs2 := 0 }
         { RY := A } (upd (upd dm A 0xCD) (A + 1) 0xAB)) = some 0xFFFFFFCD ∧
       rzOf (memoryAccess
         { instruction := 0, instructionType := InstructionType.I, PC := 0,
           opcode := 0x03, func3 := 0, func7 := 0, rd := 5, rs1 := 3, rs2 := 0 }
         { RY := A + 1 } (upd (upd dm A 0xCD) (A + 1) 0xAB)) = some 0xFFFFFFAB) := by
  refine ⟨memAccess_lb, memAccess_lh, ?_⟩
  intro A dm hA
  have hA' : A + 2 ≤ 2147483648 := hA
  refine ⟨?_, ?_, ?_⟩
  · rw [memAccess_sh _ _ _ rfl rfl]
    simp only [dmOf]
    rw [(by decide : (0xABCD : Nat) &&& 0xFF = 0xCD), (by decide : (0xABCD : Nat) >>> 8 &&& 0xFF = 0xAB)]
  · have hc : ¬ u32 (({ RY := A } : InstructionRegisters).RY + 1) > MEMORY_SIZE := by
      unfold u32 M32 MEMORY_SIZE
      simp only
      omega
    rw [memAccess_lb _ _ _ rfl rfl hc]
    simp [rzOf, upd, sext8]
  · have hc : ¬ u32 (({ RY := A + 1 } : InstructionRegisters).RY + 1) > MEMORY_SIZE := by
      unfold u32 M32 MEMORY_SIZE
      simp only
      omega
    rw [memAccess_lb _ _ _ rfl rfl hc]
    simp [rzOf, upd, sext8]

/-- Witness for C8: the SH-then-LB scenario at the data-segment base over
an empty data image. -/
theorem load_sign_extension_witness :
    rzOf (memoryAccess
      { instruction := 0, instructionType := InstructionType.I, PC := 0,
        opcode := 0x03, func3 := 0, func7 := 0, rd := 5, rs1 := 3, rs2 := 0 }
      { RY := 0x10000000 }
      (upd (upd (fun _ => 0) 0x10000000 0xCD) (0x10000000 + 1) 0xAB)) = some 0xFFFFFFCD ∧
    rzOf (memoryAccess
      { instruction := 0, instructionType := InstructionType.I, PC := 0,
        opcode := 0x03, func3 := 0, func7 := 0, rd := 5, rs1 := 3, rs2 := 0 }
      { RY := 0x10000000 + 1 }
      (upd (upd (fun _ => 0) 0x10000000 0xCD) (0x10000000 + 1) 0xAB)) = some 0xFFFFFFAB :=
  ⟨(load_sign_extension.2.2 0x10000000 (fun _ => 0) (by decide)).2.1,
   (load_sign_extension.2.2 0x10000000 (fun _ => 0) (by decide)).2.2⟩

/-- C7: the little-endian store/load round trip: for every 32-bit word W
and every aligned in-range address A, the memory unit's SW of W at A lays
down the four bytes of W, and its LW from A then returns exactly W. -/
theorem sw_lw_roundtrip :
    ∀ (W A : Nat) (dm : Nat → Nat) (nS nL : InstrNode) (irS irL : InstructionRegisters),
      W < M32 → A % 4 = 0 → A + 4 ≤ MEMORY_SIZE →
      nS.opcode = 0x23 → nS.func3 = 2 → irS.RY = A → irS.RM = W →
      nL.opcode = 0x03 → nL.func3 = 2 → irL.RY = A →
      dmOf (memoryAccess nS irS dm) = some (swImage W A dm) ∧
      rzOf (memoryAccess nL irL (swImage W A dm)) = some W := by
  intro W A dm nS nL irS irL hW hAlign hA hS hS3 hSY hSM hL hL3 hLY
  constructor
  · rw [memAccess_sw nS irS dm hS hS3]
    simp only [dmOf]
    rw [hSY, hSM]
  · have hA' : A + 4 ≤ 2147483648 := hA
    have hc : ¬ u32 (irL.RY + 4) > MEMORY_SIZE := by
      rw [hLY]
      unfold u32 M32 MEMORY_SIZE
      omega
    rw [memAccess_lw nL irL _ hL hL3 hc]
    simp only [rzOf]
    rw [hLY]
    have e0 : swImage W A dm A = W &&& 0xFF := by
      simp [swImage, upd]
    have e1 : swImage W A dm (A + 1) = (W >>> 8) &&& 0xFF := by
      simp [swImage, upd]
    have e2 : swImage W A dm (A + 2) = (W >>> 16) &&& 0xFF := by
      simp [swImage, upd]
    have e3 : swImage W A dm (A + 3) = (W >>> 24) &&& 0xFF := by
      simp [swImage, upd]
    rw [e0, e1, e2, e3]
    exact congrArg some (bytes_recompose W hW)

/-- Witness for C7: the round trip at W = 0x12345678, A = 0x10000000 over
an empty data image with the concrete SW and LW records. -/
theorem sw_lw_roundtrip_witness :
    rzOf (memoryAccess
      { instruction := 0, instructionType := InstructionType.I, PC := 0,
        opcode := 0x03, func3 := 2, func7 := 0, rd := 5, rs1 := 3, rs2 := 0 }
      { RY := 0x10000000 } (swImage 0x12345678 0x10000000 (fun _ => 0))) =
      some 0x12345678 :=
  (sw_lw_roundtrip 0x12345678 0x10000000 (fun _ => 0)
    { instruction := 0, instructionType := InstructionType.S, PC := 0,
      opcode := 0x23, func3 := 2, func7 := 0, rd := 0, rs1 := 3, rs2 := 5 }
    { instruction := 0, instructionType := InstructionType.I, PC := 0,
      opcode := 0x03, func3 := 2, func7 := 0, rd := 5, rs1 := 3, rs2 := 0 }
    { RM := 0x12345678, RY := 0x10000000 } { RY := 0x10000000 }
    (by decide) (by decide) (by decide) rfl rfl rfl rfl rfl rfl rfl).2


theorem exForward_RA_flag (node : InstrNode) (d : Dep) (st : InstructionRegisters × ForwardingStatus)
    (h : raExMatch node d = false) :
    (exForward node d st).1.RA = st.1.RA ∧ (exForward node d st).2.raForwarded = st.2.raForwarded := by
  unfold exForward
  by_cases c1 : d.stage = Stage.EXECUTE ∧ d.reg ≠ 0 ∧ ¬ isLoadOpcode d.opcode
  · rw [if_pos c1]
    have hrs1 : ¬ (node.rs1 ≠ 0 ∧ node.rs1 = d.reg) := by
      rcases c1 with ⟨a, b, c⟩
      rintro ⟨h1, h2⟩
      simp [raExMatch, a, b, c, h1, h2] at h
    unfold exForwardRs2 exForwardRs1
    rw [if_neg hrs1]
    split_ifs <;> simp
  · rw [if_neg c1]
    exact ⟨rfl, rfl⟩

theorem exForward_RA_set (node : InstrNode) (d : Dep) (st : InstructionRegisters × ForwardingStatus)
    (h : raExMatch node d = true) :
    (exForward node d st).1.RA = d.value ∧ (exForward node d st).2.raForwarded = true := by
  have hc : d.stage = Stage.EXECUTE ∧ d.reg ≠ 0 ∧ isLoadOpcode d.opcode = false ∧
      node.rs1 ≠ 0 ∧ node.rs1 = d.reg := by
    simp [raExMatch] at h
    tauto
  unfold exForward exForwardRs1
  rw [if_pos ⟨hc.1, hc.2.1, by simp [hc.2.2.1]⟩, if_pos ⟨hc.2.2.2.1, hc.2.2.2.2⟩]
  unfold exForwardRs2
  split_ifs <;> simp

theorem memForward_RA_keep (node : InstrNode) (d : Dep) (st : InstructionRegisters × ForwardingStatus)
    (h : st.2.raForwarded = true) :
    (memForward node d st).1.RA = st.1.RA ∧ (memForward node d st).2.raForwarded = true := by
  unfold memForward memForwardRs1 memForwardRs2
  split_ifs <;> simp_all

theorem exForward_RM_flag (node : InstrNode) (d : Dep) (st : InstructionRegisters × ForwardingStatus)
    (hS : node.instructionType = InstructionType.S) (h : rs2ExMatch node d = false) :
    (exForward node d st).1.RM = st.1.RM ∧ (exForward node d st).2.rmForwarded = st.2.rmForwarded := by
  unfold exForward
  by_cases c1 : d.stage = Stage.EXECUTE ∧ d.reg ≠ 0 ∧ ¬ isLoadOpcode d.opcode
  · rw [if_pos c1]
    have hrs2 : ¬ ((node.instructionType = InstructionType.R ∨ node.instructionType = InstructionType.S ∨
        node.instructionType = InstructionType.SB) ∧ node.rs2 ≠ 0 ∧ node.rs2 = d.reg) := by
      rcases c1 with ⟨a, b, c⟩
      rintro ⟨_, h1, h2⟩
      simp [rs2ExMatch, a, b, c, hS, h1, h2] at h
    unfold exForwardRs2 exForwardRs1
    rw [if_neg hrs2]
    split_ifs <;> simp
  · rw [if_neg c1]
    exact ⟨rfl, rfl⟩

theorem exForward_RM_set (node : InstrNode) (d : Dep) (st : InstructionRegisters × ForwardingStatus)
    (hS : node.instructionType = InstructionType.S) (h : rs2ExMatch node d = true) :
    (exForward node d st).1.RM = d.value ∧ (exForward node d st).2.rmForwarded = true := by
  have hc : d.stage = Stage.EXECUTE ∧ d.reg ≠ 0 ∧ isLoadOpcode d.opcode = false ∧
      node.rs2 ≠ 0 ∧ node.rs2 = d.reg := by
    simp [rs2ExMatch] at h
    tauto
  unfold exForward
  rw [if_pos ⟨hc.1, hc.2.1, by simp [hc.2.2.1]⟩]
  unfold exForwardRs2
  rw [if_pos ⟨Or.inr (Or.inl hS), hc.2.2.2.1, hc.2.2.2.2⟩, if_pos hS]
  exact ⟨rfl, rfl⟩

theorem memForward_RM_keep (node : InstrNode) (d : Dep) (st : InstructionRegisters × ForwardingStatus)
    (h : st.2.rmForwarded = true) :
    (memForward node d st).1.RM = st.1.RM ∧ (memForward node d st).2.rmForwarded = true := by
  unfold memForward memForwardRs1 memForwardRs2
  split_ifs <;> simp_all

theorem exForward_RB_S (node : InstrNode) (d : Dep) (st : InstructionRegisters × ForwardingStatus)
    (hS : node.instructionType = InstructionType.S) :
    (exForward node d st).1.RB = st.1.RB := by
  unfold exForward exForwardRs1 exForwardRs2
  split_ifs <;> simp_all

theorem memForward_RB_S (node : InstrNode) (d : Dep) (st : InstructionRegisters × ForwardingStatus)
    (hS : node.instructionType = InstructionType.S) :
    (memForward node d st).1.RB = st.1.RB := by
  unfold memForward memForwardRs1 memForwardRs2
  split_ifs <;> simp_all

theorem exForward_RB_flag (node : InstrNode) (d : Dep) (st : InstructionRegisters × ForwardingStatus)
    (hR : node.instructionType = InstructionType.R) (h : rs2ExMatch node d = false) :
    (exForward node d st).1.RB = st.1.RB ∧ (exForward node d st).2.rbForwarded = st.2.rbForwarded := by
  unfold exForward
  by_cases c1 : d.stage = Stage.EXECUTE ∧ d.reg ≠ 0 ∧ ¬ isLoadOpcode d.opcode
  · rw [if_pos c1]
    have hrs2 : ¬ ((node.instructionType = InstructionType.R ∨ node.instructionType = InstructionType.S ∨
        node.instructionType = InstructionType.SB) ∧ node.rs2 ≠ 0 ∧ node.rs2 = d.reg) := by
      rcases c1 with ⟨a, b, c⟩
      rintro ⟨_, h1, h2⟩
      simp [rs2ExMatch, a, b, c, hR, h1, h2] at h
    unfold exForwardRs2 exForwardRs1
    rw [if_neg hrs2]
    split_ifs <;> simp
  · rw [if_neg c1]
    exact ⟨rfl, rfl⟩

theorem exForward_RB_set (node : InstrNode) (d : Dep) (st : InstructionRegisters × ForwardingStatus)
    (hR : node.instructionType = InstructionType.R) (h : rs2ExMatch node d = true) :
    (exForward node d st).1.RB = d.value ∧ (exForward node d st).2.rbForwarded = true := by
  have hc : d.stage = Stage.EXECUTE ∧ d.reg ≠ 0 ∧ isLoadOpcode d.opcode = false ∧
      node.rs2 ≠ 0 ∧ node.rs2 = d.reg := by
    simp [rs2ExMatch] at h
    tauto
  unfold exForward
  rw [if_pos ⟨hc.1, hc.2.1, by simp [hc.2.2.1]⟩]
  unfold exForwardRs2
  rw [if_pos ⟨Or.inl hR, hc.2.2.2.1, hc.2.2.2.2⟩, if_neg (by simp [hR])]
  exact ⟨rfl, rfl⟩

theorem memForward_RB_keep (node : InstrNode) (d : Dep) (st : InstructionRegisters × ForwardingStatus)
    (h : st.2.rbForwarded = true) :
    (memForward node d st).1.RB = st.1.RB ∧ (memForward node d st).2.rbForwarded = true := by
  unfold memForward memForwardRs1 memForwardRs2
  split_ifs <;> simp_all

theorem exForward_rs1_zero (node : InstrNode) (d : Dep) (st : InstructionRegisters × ForwardingStatus)
    (h : node.rs1 = 0) : (exForward node d st).1.RA = st.1.RA := by
  unfold exForward exForwardRs1 exForwardRs2
  split_ifs <;> simp_all

theorem memForward_rs1_zero (node : InstrNode) (d : Dep) (st : InstructionRegisters × ForwardingStatus)
    (h : node.rs1 = 0) : (memForward node d st).1.RA = st.1.RA := by
  unfold memForward memForwardRs1 memForwardRs2
  split_ifs <;> simp_all

theorem exForward_rs2_zero (node : InstrNode) (d : Dep) (st : InstructionRegisters × ForwardingStatus)
    (h : node.rs2 = 0) :
    (exForward node d st).1.RB = st.1.RB ∧ (exForward node d st).1.RM = st.1.RM := by
  unfold exForward exForwardRs1 exForwardRs2
  split_ifs <;> simp_all

theorem memForward_rs2_zero (node : InstrNode) (d : Dep) (st : InstructionRegisters × ForwardingStatus)
    (h : node.rs2 = 0) :
    (memForward node d st).1.RB = st.1.RB ∧ (memForward node d st).1.RM = st.1.RM := by
  unfold memForward memForwardRs1 memForwardRs2
  split_ifs <;> simp_all

theorem exFold_RA_none (node : InstrNode) (l : List Dep) :
    ∀ st, (∀ d ∈ l, raExMatch node d = false) →
    ((l.foldl (fun st dep => exForward node dep st) st).1.RA = st.1.RA ∧
     (l.foldl (fun st dep => exForward node dep st) st).2.raForwarded = st.2.raForwarded) := by
  induction l with
  | nil => exact fun st h => ⟨rfl, rfl⟩
  | cons a t ih =>
    intro st h
    simp only [List.foldl_cons]
    have ha := exForward_RA_flag node a st (h a (by simp))
    have ht := ih (exForward node a st) (fun d hd => h d (by simp [hd]))
    exact ⟨ht.1.trans ha.1, ht.2.trans ha.2⟩

theorem exFold_RA_single (node : InstrNode) (l : List Dep) :
    ∀ st d, l.filter (raExMatch node) = [d] →
    ((l.foldl (fun st dep => exForward node dep st) st).1.RA = d.value ∧
     (l.foldl (fun st dep => exForward node dep st) st).2.raForwarded = true) := by
  induction l with
  | nil => intro st d h; simp at h
  | cons a t ih =>
    intro st d h
    simp only [List.foldl_cons]
    cases ha : raExMatch node a with
    | true =>
      rw [List.filter_cons_of_pos ha] at h
      injection h with h1 h2
      subst h1
      have hset := exForward_RA_set node a st ha
      have hnone := exFold_RA_none node t (exForward node a st)
        (fun d hd => by
          have := (List.filter_eq_nil_iff.mp h2) d hd
          simpa using this)
      exact ⟨hnone.1.trans hset.1, hnone.2.trans hset.2⟩
    | false =>
      rw [List.filter_cons_of_neg (by simp [ha])] at h
      exact ih (exForward node a st) d h

theorem memFold_RA_keep (node : InstrNode) (l : List Dep) :
    ∀ st, st.2.raForwarded = true →
    ((l.foldl (fun st dep => memForward node dep st) st).1.RA = st.1.RA ∧
     (l.foldl (fun st dep => memForward node dep st) st).2.raForwarded = true) := by
  induction l with
  | nil => exact fun st h => ⟨rfl, h⟩
  | cons a t ih =>
    intro st h
    simp only [List.foldl_cons]
    have ha := memForward_RA_keep node a st h
    have ht := ih (memForward node a st) ha.2
    exact ⟨ht.1.trans ha.1, ht.2⟩

theorem exFold_RM_none (node : InstrNode) (l : List Dep)
    (hS : node.instructionType = InstructionType.S) :
    ∀ st, (∀ d ∈ l, rs2ExMatch node d = false) →
    ((l.foldl (fun st dep => exForward node dep st) st).1.RM = st.1.RM ∧
     (l.foldl (fun st dep => exForward node dep st) st).2.rmForwarded = st.2.rmForwarded) := by
  induction l with
  | nil => exact fun st h => ⟨rfl, rfl⟩
  | cons a t ih =>
    intro st h
    simp only [List.foldl_cons]
    have ha := exForward_RM_flag node a st hS (h a (by simp))
    have ht := ih (exForward node a st) (fun d hd => h d (by simp [hd]))
    exact ⟨ht.1.trans ha.1, ht.2.trans ha.2⟩

theorem exFold_RM_single (node : InstrNode) (l : List Dep)
    (hS : node.instructionType = InstructionType.S) :
    ∀ st d, l.filter (rs2ExMatch node) = [d] →
    ((l.foldl (fun st dep => exForward node dep st) st).1.RM = d.value ∧
     (l.foldl (fun st dep => exForward node dep st) st).2.rmForwarded = true) := by
  induction l with
  | nil => intro st d h; simp at h
  | cons a t ih =>
    intro st d h
    simp only [List.foldl_cons]
    cases ha : rs2ExMatch node a with
    | true =>
      rw [List.filter_cons_of_pos ha] at h
      injection h with h1 h2
      subst h1
      have hset := exForward_RM_set node a st hS ha
      have hnone := exFold_RM_none node t hS (exForward node a st)
        (fun d hd => by
          have := (List.filter_eq_nil_iff.mp h2) d hd
          simpa using this)
      exact ⟨hnone.1.trans hset.1, hnone.2.trans hset.2⟩
    | false =>
      rw [List.filter_cons_of_neg (by simp [ha])] at h
      exact ih (exForward node a st) d h

theorem memFold_RM_keep (node : InstrNode) (l : List Dep) :
    ∀ st, st.2.rmForwarded = true →
    ((l.foldl (fun st dep => memForward node dep st) st).1.RM = st.1.RM ∧
     (l.foldl (fun st dep => memForward node dep st) st).2.rmForwarded = true) := by
  induction l with
  | nil => exact fun st h => ⟨rfl, h⟩
  | cons a t ih =>
    intro st h
    simp only [List.foldl_cons]
    have ha := memForward_RM_keep node a st h
    have ht := ih (memForward node a st) ha.2
    exact ⟨ht.1.trans ha.1, ht.2⟩

theorem exFold_RB_S (node : InstrNode) (l : List Dep)
    (hS : node.instructionType = InstructionType.S) :
    ∀ st, (l.foldl (fun st dep => exForward node dep st) st).1.RB = st.1.RB := by
  induction l with
  | nil => exact fun st => rfl
  | cons a t ih =>
    intro st
    simp only [List.foldl_cons]
    exact (ih (exForward node a st)).trans (exForward_RB_S node a st hS)

theorem memFold_RB_S (node : InstrNode) (l : List Dep)
    (hS : node.instructionType = InstructionType.S) :
    ∀ st, (l.foldl (fun st dep => memForward node dep st) st).1.RB = st.1.RB := by
  induction l with
  | nil => exact fun st => rfl
  | cons a t ih =>
    intro st
    simp only [List.foldl_cons]
    exact (ih (memForward node a st)).trans (memForward_RB_S node a st hS)

theorem exFold_RB_none (node : InstrNode) (l : List Dep)
    (hR : node.instructionType = InstructionType.R) :
    ∀ st, (∀ d ∈ l, rs2ExMatch node d = false) →
    ((l.foldl (fun st dep => exForward node dep st) st).1.RB = st.1.RB ∧
     (l.foldl (fun st dep => exForward node dep st) st).2.rbForwarded = st.2.rbForwarded) := by
  induction l with
  | nil => exact fun st h => ⟨rfl, rfl⟩
  | cons a t ih =>
    intro st h
    simp only [List.foldl_cons]
    have ha := exForward_RB_flag node a st hR (h a (by simp))
    have ht := ih (exForward node a st) (fun d hd => h d (by simp [hd]))
    exact ⟨ht.1.trans ha.1, ht.2.trans ha.2⟩

theorem exFold_RB_single (node : InstrNode) (l : List Dep)
    (hR : node.instructionType = InstructionType.R) :
    ∀ st d, l.filter (rs2ExMatch node) = [d] →
    ((l.foldl (fun st dep => exForward node dep st) st).1.RB = d.value ∧
     (l.foldl (fun st dep => exForward node dep st) st).2.rbForwarded = true) := by
  induction l with
  | nil => intro st d h; simp at h
  | cons a t ih =>
    intro st d h
    simp only [List.foldl_cons]
    cases ha : rs2ExMatch node a with
    | true =>
      rw [List.filter_cons_of_pos ha] at h
      injection h with h1 h2
      subst h1
      have hset := exForward_RB_set node a st hR ha
      have hnone := exFold_RB_none node t hR (exForward node a st)
        (fun d hd => by
          have := (List.filter_eq_nil_iff.mp h2) d hd
          simpa using this)
      exact ⟨hnone.1.trans hset.1, hnone.2.trans hset.2⟩
    | false =>
      rw [List.filter_cons_of_neg (by simp [ha])] at h
      exact ih (exForward node a st) d h

theorem memFold_RB_keep (node : InstrNode) (l : List Dep) :
    ∀ st, st.2.rbForwarded = true →
    ((l.foldl (fun st dep => memForward node dep st) st).1.RB = st.1.RB ∧
     (l.foldl (fun st dep => memForward node dep st) st).2.rbForwarded = true) := by
  induction l with
  | nil => exact fun st h => ⟨rfl, h⟩
  | cons a t ih =>
    intro st h
    simp only [List.foldl_cons]
    have ha := memForward_RB_keep node a st h
    have ht := ih (memForward node a st) ha.2
    exact ⟨ht.1.trans ha.1, ht.2⟩

theorem fold_rs1_zero (node : InstrNode) (l : List Dep) (h : node.rs1 = 0) :
    ∀ st, ((l.foldl (fun st dep => exForward node dep st) st).1.RA = st.1.RA ∧
           (l.foldl (fun st dep => memForward node dep st) st).1.RA = st.1.RA) := by
  induction l with
  | nil => exact fun st => ⟨rfl, rfl⟩
  | cons a t ih =>
    intro st
    simp only [List.foldl_cons]
    exact ⟨(ih (exForward node a st)).1.trans (exForward_rs1_zero node a st h),
           (ih (memForward node a st)).2.trans (memForward_rs1_zero node a st h)⟩

theorem fold_rs2_zero (node : InstrNode) (l : List Dep) (h : node.rs2 = 0) :
    ∀ st, ((l.foldl (fun st dep => exForward node dep st) st).1.RB = st.1.RB ∧
           (l.foldl (fun st dep => exForward node dep st) st).1.RM = st.1.RM ∧
           (l.foldl (fun st dep => memForward node dep st) st).1.RB = st.1.RB ∧
           (l.foldl (fun st dep => memForward node dep st) st).1.RM = st.1.RM) := by
  induction l with
  | nil => exact fun st => ⟨rfl, rfl, rfl, rfl⟩
  | cons a t ih =>
    intro st
    simp only [List.foldl_cons]
    refine ⟨(ih (exForward node a st)).1.trans (exForward_rs2_zero node a st h).1,
            (ih (exForward node a st)).2.1.trans (exForward_rs2_zero node a st h).2,
            (ih (memForward node a st)).2.2.1.trans (memForward_rs2_zero node a st h).1,
            (ih (memForward node a st)).2.2.2.trans (memForward_rs2_zero node a st h).2⟩

/-- C4: the forwarding policy of `applyDataForwarding` with pipelining and
forwarding on. When exactly one EXECUTE-stage non-load dependency matches a
source operand, that operand receives the producer's latched EX value (the
RY recorded by `updateDependencies` at EX), whatever MEMORY-stage
dependencies the snapshot also holds: EX to EX has priority over MEM to EX.
For an S-type consumer's rs2 the forwarded value lands in RM (the store
value) and RB is untouched; and an operand that is register x0 is never
forwarded. -/
theorem forwarding_policy :
    (∀ (node : InstrNode) (deps : List Dep) (d : Dep)
       (ir : InstructionRegisters) (fs : ForwardingStatus),
       deps.filter (raExMatch node) = [d] →
       (applyDataForwarding true true node deps ir fs).1.RA = d.value) ∧
    (∀ (node : InstrNode) (deps : List Dep) (d : Dep)
       (ir : InstructionRegisters) (fs : ForwardingStatus),
       node.instructionType = InstructionType.R →
       deps.filter (rs2ExMatch node) = [d] →
       (applyDataForwarding true true node deps ir fs).1.RB = d.value) ∧
    (∀ (node : InstrNode) (deps : List Dep) (d : Dep)
       (ir : InstructionRegisters) (fs : ForwardingStatus),
       node.instructionType = InstructionType.S →
       deps.filter (rs2ExMatch node) = [d] →
       (applyDataForwarding true true node deps ir fs).1.RM = d.value ∧
       (applyDataForwarding true true node deps ir fs).1.RB = ir.RB) ∧
    (∀ (node : InstrNode) (deps : List Dep)
       (ir : InstructionRegisters) (fs : ForwardingStatus),
       node.rs1 = 0 → (applyDataForwarding true true node deps ir fs).1.RA = ir.RA) ∧
    (∀ (node : InstrNode) (deps : List Dep)
       (ir : InstructionRegisters) (fs : ForwardingStatus),
       node.rs2 = 0 →
       (applyDataForwarding true true node deps ir fs).1.RB = ir.RB ∧
       (applyDataForwarding true true node deps ir fs).1.RM = ir.RM) := by
  refine ⟨?_, ?_, ?_, ?_, ?_⟩
  · intro node deps d ir fs h
    unfold applyDataForwarding
    rw [if_neg (by simp)]
    have h1 := exFold_RA_single node deps (ir, {}) d h
    have h2 := memFold_RA_keep node deps _ h1.2
    exact h2.1.trans h1.1
  · intro node deps d ir fs hR h
    unfold applyDataForwarding
    rw [if_neg (by simp)]
    have h1 := exFold_RB_single node deps hR (ir, {}) d h
    have h2 := memFold_RB_keep node deps _ h1.2
    exact h2.1.trans h1.1
  · intro node deps d ir fs hS h
    unfold applyDataForwarding
    rw [if_neg (by simp)]
    have h1 := exFold_RM_single node deps hS (ir, {}) d h
    have h2 := memFold_RM_keep node deps _ h1.2
    exact ⟨h2.1.trans h1.1,
      (memFold_RB_S node deps hS _).trans (exFold_RB_S node deps hS (ir, {}))⟩
  · intro node deps ir fs h
    unfold applyDataForwarding
    rw [if_neg (by simp)]
    exact (fold_rs1_zero node deps h _).2.trans (fold_rs1_zero node deps h (ir, {})).1
  · intro node deps ir fs h
    unfold applyDataForwarding
    rw [if_neg (by simp)]
    exact ⟨(fold_rs2_zero node deps h _).2.2.1.trans (fold_rs2_zero node deps h (ir, {})).1,
           (fold_rs2_zero node deps h _).2.2.2.trans (fold_rs2_zero node deps h (ir, {})).2.1⟩

/-- Witness for C4: a consumer with rs1 = 5 and a snapshot holding both a
MEMORY-stage producer of register 5 (value 99) and an EXECUTE-stage
producer of register 5 (value 42); RA receives the EX producer's 42. -/
theorem forwarding_policy_witness :
    (applyDataForwarding true true
      { instruction := 0, instructionType := InstructionType.R, PC := 8,
        opcode := 0x33, func3 := 0, func7 := 0, rd := 3, rs1 := 5, rs2 := 6 }
      [{ reg := 5, pc := 0, stage := Stage.MEMORY, opcode := 0x13, value := 99 },
       { reg := 5, pc := 4, stage := Stage.EXECUTE, opcode := 0x13, value := 42 }]
      { RA := 7 } {}).1.RA = 42 :=
  forwarding_policy.1
    { instruction := 0, instructionType := InstructionType.R, PC := 8,
      opcode := 0x33, func3 := 0, func7 := 0, rd := 3, rs1 := 5, rs2 := 6 }
    [{ reg := 5, pc := 0, stage := Stage.MEMORY, opcode := 0x13, value := 99 },
     { reg := 5, pc := 4, stage := Stage.EXECUTE, opcode := 0x13, value := 42 }]
    { reg := 5, pc := 4, stage := Stage.EXECUTE, opcode := 0x13, value := 42 }
    { RA := 7 } {} (by decide)

/-- C10: `loadProgram` preserves the two mode switches that were in effect
before the call on every frontend outcome, and on success it resets every
other component: PC to the text base, registers to their initial values,
all five latch slots empty except a single fresh FETCH record at the text
base, data and text images rebuilt from the new machine code alone,
dependency table, statistics, predictor, datapath registers, forwarding
status, UI response and instruction counter restored, and the logs holding
only the success entry. -/
theorem loadProgram_frame :
    (∀ (s : Sim) (front : FrontendResult),
       (loadProgram s front).2.isPipeline = s.isPipeline ∧
       (loadProgram s front).2.isDataForwarding = s.isDataForwarding) ∧
    (∀ (s : Sim) (mc : List (Nat × Nat)),
       mc.all (fun p => p.1 ≥ DATA_SEGMENT_START || parseOk p.2) = true →
       loadProgram s (FrontendResult.assembled mc) =
         (true, { PC := TEXT_SEGMENT_START, registers := initialiseRegisters,
                  dataMap := buildDataMap mc, textMap := buildTextMap mc,
                  fetchSlot := some (freshNode TEXT_SEGMENT_START),
                  decodeSlot := none, executeSlot := none, memorySlot := none,
                  writebackSlot := none, instructionRegisters := {},
                  forwardingStatus := {}, uiResponse := {}, running := true,
                  isPipeline := s.isPipeline, isDataForwarding := s.isDataForwarding,
                  stats := {}, registerDependencies := [], predictor := {},
                  logs := updLog (fun _ => none) 200 "Program loaded successfully",
                  instructionCount := 0 })) := by
  constructor
  · intro s front
    cases front with
    | emptyTokens => exact ⟨rfl, rfl⟩
    | parseFailure n => exact ⟨rfl, rfl⟩
    | assembleFailure n => exact ⟨rfl, rfl⟩
    | assembled mc =>
      by_cases hmc : mc.all (fun p => p.1 ≥ DATA_SEGMENT_START || parseOk p.2) = true
      · simp [loadProgram, hmc]
      · simp [loadProgram, hmc]
  · intro s mc h
    simp [loadProgram, resetSim, h]

/-- Witness for C10: loading a two-entry machine-code image (one text word,
one data byte) over `sampleSim`, whose pipeline mode is off and forwarding
mode on; both modes survive while everything else is rebuilt. -/
theorem loadProgram_frame_witness :
    loadProgram sampleSim
      (FrontendResult.assembled [(0, 0x00700293), (0x10000000, 0xAB)]) =
      (true, { PC := TEXT_SEGMENT_START, registers := initialiseRegisters,
               dataMap := buildDataMap [(0, 0x00700293), (0x10000000, 0xAB)],
               textMap := buildTextMap [(0, 0x00700293), (0x10000000, 0xAB)],
               fetchSlot := some (freshNode TEXT_SEGMENT_START),
               decodeSlot := none, executeSlot := none, memorySlot := none,
               writebackSlot := none, instructionRegisters := {},
               forwardingStatus := {}, uiResponse := {}, running := true,
               isPipeline := false, isDataForwarding := true,
               stats := {}, registerDependencies := [], predictor := {},
               logs := updLog (fun _ => none) 200 "Program loaded successfully",
               instructionCount := 0 }) :=
  loadProgram_frame.2 sampleSim [(0, 0x00700293), (0x10000000, 0xAB)] (by decide)

end RiscvSim
